import Mathlib

/-!
Verification of the LyricalFlow timeline engine.

This file gives a shallow embedding of the timeline, compositing and export
logic of the application (source: src/components/Timeline.tsx and the type
declarations in src/types.ts), together with theorems settling the frozen
claims about that logic.

Conventions of the embedding:
* JavaScript numbers are modelled as exact rationals.
* JavaScript strings used only as abstract identifiers stay String; overlay
  text manipulated by substring is modelled as a list of characters, so that
  substring(0, n) becomes List.take n.
* Optional object fields become Option values; the JS expression a || b on
  numbers becomes jsOr (b is taken exactly when a is 0).
* The canvas drawing routine drawCanvas is embedded as a pure function from
  the component state it reads to the list of abstract draw operations it
  issues, in issue order.
-/

namespace LyricalFlow

/-- Transition kinds from src/types.ts. -/
inductive TransitionEffect where
  | none
  | fade
  | slide
  | zoom
deriving DecidableEq, Repr

/-- Text animation kinds from src/types.ts. -/
inductive TextAnimation where
  | none
  | fade
  | slideUp
  | typewriter
deriving DecidableEq, Repr

/-- Output resolution presets from src/types.ts. -/
inductive VideoResolution where
  | r720p
  | r1080p
deriving DecidableEq, Repr

/-- Application state machine values from src/types.ts. -/
inductive AppState where
  | IDLE
  | PROCESSING
  | READY
  | EXPORTING
deriving DecidableEq, Repr

/-- Crop data from src/types.ts. -/
structure CropData where
  x : ℚ
  y : ℚ
  scale : ℚ
deriving DecidableEq, Repr

/-- Per-image filter adjustments from src/types.ts. -/
structure ImageAdjustments where
  brightness : ℚ
  contrast : ℚ
  saturation : ℚ
  sepia : ℚ
  grayscale : ℚ
  blur : ℚ
deriving DecidableEq, Repr

/-- A text overlay owned by one image clip, from src/types.ts.  The text is
modelled as a list of characters so that the substring(0, n) of the
typewriter animation becomes List.take n. -/
structure TextOverlay where
  id : String
  text : List Char
  x : ℚ
  y : ℚ
  fontSize : ℚ
  fontFamily : String
  color : String
  opacity : ℚ
  animation : TextAnimation
  animationDuration : ℚ
deriving DecidableEq, Repr

/-- One image clip on the timeline, from src/types.ts.  The File handle is
abstract and omitted; the object URL stays as a string. -/
structure ImageAsset where
  id : String
  url : String
  crop : Option CropData
  adjustments : Option ImageAdjustments
  duration : ℚ
  textOverlays : List TextOverlay
deriving DecidableEq, Repr

/-- A lyric subtitle segment, from src/types.ts. -/
structure Subtitle where
  id : String
  startTime : ℚ
  endTime : ℚ
  text : String
deriving DecidableEq, Repr

/-- An audio asset (main or background), from src/types.ts; the File handle
is abstract and omitted. -/
structure AudioAsset where
  url : String
  duration : ℚ
deriving DecidableEq, Repr

/-- The decoded-image information drawCanvas reads from imageElementsRef:
natural width, natural height and the complete flag of the HTMLImageElement. -/
structure ImgEl where
  width : ℚ
  height : ℚ
  complete : Bool
deriving DecidableEq, Repr

/-- The JavaScript expression a || b for finite numbers: b exactly when a
is 0, else a. -/
def jsOr (a b : ℚ) : ℚ := if a = 0 then b else a

/-- Timeline.tsx line 333: images.reduce((acc, img) => acc + img.duration, 0). -/
def totalImageDuration (images : List ImageAsset) : ℚ :=
  images.foldl (fun acc img => acc + img.duration) 0

/-- Timeline.tsx line 334:
Math.max(audioAsset?.duration || 0, totalImageDuration || 10). -/
def totalDuration (audioAsset : Option AudioAsset) (images : List ImageAsset) : ℚ :=
  max (jsOr ((audioAsset.map AudioAsset.duration).getD 0) 0)
    (jsOr (totalImageDuration images) 10)

/-- The clip-scanning loop shared by getActiveImageIndex (Timeline.tsx lines
342-347) and drawCanvas (line 648): walk the clips accumulating start times
and return the first index i with accumulatedTime <= t < accumulatedTime +
duration, together with that accumulated start time and the clip itself. -/
def findActiveAux : List ImageAsset → ℚ → ℚ → ℕ → Option (ℕ × ℚ × ImageAsset)
  | [], _, _, _ => none
  | img :: rest, t, acc, i =>
    if acc ≤ t ∧ t < acc + img.duration then some (i, acc, img)
    else findActiveAux rest t (acc + img.duration) (i + 1)

/-- Timeline.tsx lines 339-349 (getActiveImageIndex): -1 for an empty clip
list, the containing clip index when one exists, else the last index. -/
def getActiveImageIndex (images : List ImageAsset) (t : ℚ) : ℤ :=
  if images.length = 0 then -1
  else
    match findActiveAux images t 0 0 with
    | some (i, _, _) => (i : ℤ)
    | none => (images.length : ℤ) - 1

/-- Cumulative start time of clip i: the sum of the durations of the clips
before it (Timeline.tsx line 192 and the accumulatedTime of the scanning
loops). -/
def cumStart (images : List ImageAsset) (i : ℕ) : ℚ :=
  ((images.take i).map ImageAsset.duration).sum

/-- Duration of clip i, 0 past the end of the list. -/
def durAt (images : List ImageAsset) (i : ℕ) : ℚ :=
  match images.get? i with
  | some img => img.duration
  | none => 0

/-- Canvas pixel dimensions of the two output presets (Timeline.tsx
RESOLUTIONS table). -/
def resolutionDims : VideoResolution → ℚ × ℚ
  | VideoResolution.r720p => (1280, 720)
  | VideoResolution.r1080p => (1920, 1080)

/-- An abstract draw operation issued by drawCanvas, in issue order.  Each
constructor records the arguments of the corresponding canvas calls. -/
inductive DrawOp where
  | bgFill (color : String)
  | placeholder
  | layer (imgId : String) (opacity : ℚ) (bgScale : ℚ) (destW : ℚ) (destH : ℚ)
      (verticalBias : ℚ) (panX : ℚ) (panY : ℚ) (finalScale : ℚ)
      (adj : ImageAdjustments)
  | overlayText (text : List Char) (x : ℚ) (y : ℚ) (opacity : ℚ)
      (fontSize : ℚ) (fontFamily : String) (color : String)
  | subtitle (text : String)
deriving DecidableEq, Repr

/-- Default crop used when a clip has none (Timeline.tsx line 652). -/
def defaultCrop : CropData := ⟨0, 0, 1⟩

/-- Default adjustments used when a clip has none (Timeline.tsx line 653). -/
def defaultAdjustments : ImageAdjustments := ⟨100, 100, 100, 0, 0, 0⟩

/-- Timeline.tsx lines 651-664 (renderLayer inside drawCanvas): draw one clip
layer at the given opacity, skipping it entirely when the image element is
missing or not yet complete. -/
def renderLayer (W H scaleF : ℚ) (images : List ImageAsset)
    (imageEls : String → Option ImgEl) (t : ℚ) (idx : ℕ) (opacity : ℚ) :
    List DrawOp :=
  match images.get? idx with
  | none => []
  | some img =>
    match imageEls img.id with
    | none => []
    | some el =>
      if el.complete then
        let c := img.crop.getD defaultCrop
        let adj := img.adjustments.getD defaultAdjustments
        let ia := el.width / el.height
        let ca := W / H
        let rw := if ca < ia then H * ia else W
        let rh := if ca < ia then H else W / ia
        let verticalBias := if H < rh then (rh - H) * 0.25 else 0
        let lst := cumStart images idx
        let kb := max 0 (t - lst) / img.duration
        let z := 1 + kb * 0.1
        let fs := c.scale * z
        let bgScale := max (W / el.width) (H / el.height) * 1.2
        [DrawOp.layer img.id (max 0 (min 1 opacity)) bgScale rw rh verticalBias
          (c.x * scaleF) (c.y * scaleF) fs adj]
      else []

/-- Timeline.tsx lines 666-668: which layers drawCanvas renders and at which
opacities.  tl is the time left in the active clip; the transition is taken
when a non-none effect is configured, tl is inside the transition window and
the active clip is not the last one; then the next clip is blended on top at
opacity 1 - tl / window. -/
def layerPlan (eff : TransitionEffect) (td : ℚ) (n : ℕ) (t : ℚ) (i : ℕ)
    (start d : ℚ) : List (ℕ × ℚ) :=
  if eff ≠ TransitionEffect.none ∧ d - (t - start) ≤ min td (d / 2) ∧ i < n - 1
  then [(i, 1), (i + 1, 1 - (d - (t - start)) / min td (d / 2))]
  else [(i, 1)]

/-- Timeline.tsx lines 672-673: animation progress of a text overlay,
Math.min(Math.max(relativeTime / (ov.animationDuration || 1.5), 0), 1). -/
def animProgress (relativeTime animationDuration : ℚ) : ℚ :=
  min (max (relativeTime / (jsOr animationDuration 1.5)) 0) 1

/-- Timeline.tsx line 688: Math.floor(ov.text.length * progress), the number
of characters the typewriter animation reveals.  The progress argument is
already clamped to [0,1], so the JS floor agrees with the natural floor. -/
def typewriterCount (text : List Char) (progress : ℚ) : ℕ :=
  Nat.floor ((text.length : ℚ) * progress)

/-- Timeline.tsx lines 670-702: the draw operations for the text overlays of
the active clip, one per overlay in list order. -/
def overlayOps (W H scaleF t start : ℚ) (img : ImageAsset) : List DrawOp :=
  img.textOverlays.map fun ov =>
    let relativeTime := t - start
    let progress := animProgress relativeTime ov.animationDuration
    match ov.animation with
    | TextAnimation.none =>
        DrawOp.overlayText ov.text (ov.x * W) (ov.y * H) ov.opacity
          (ov.fontSize * scaleF) ov.fontFamily ov.color
    | TextAnimation.fade =>
        DrawOp.overlayText ov.text (ov.x * W) (ov.y * H)
          (ov.opacity * progress) (ov.fontSize * scaleF) ov.fontFamily ov.color
    | TextAnimation.slideUp =>
        let offset := 40 * scaleF
        let ease := 1 - (1 - progress) ^ 3
        DrawOp.overlayText ov.text (ov.x * W)
          (ov.y * H + offset - offset * ease) (ov.opacity * progress)
          (ov.fontSize * scaleF) ov.fontFamily ov.color
    | TextAnimation.typewriter =>
        DrawOp.overlayText (ov.text.take (typewriterCount ov.text progress))
          (ov.x * W) (ov.y * H) ov.opacity (ov.fontSize * scaleF)
          ov.fontFamily ov.color

/-- Timeline.tsx line 708: lyrics.find(l => currentTime >= l.startTime &&
currentTime <= l.endTime). -/
def currentLyric (lyrics : List Subtitle) (t : ℚ) : Option Subtitle :=
  lyrics.find? fun l => decide (l.startTime ≤ t ∧ t ≤ l.endTime)

/-- Background fill color of drawCanvas (Timeline.tsx line 644). -/
def colorBlack : String := "#000"

/-- Empty-state fill color of drawCanvas (Timeline.tsx line 645). -/
def colorEmptyState : String := "#1e1e24"

/-- Timeline.tsx lines 641-724 (drawCanvas), as a pure function of the
component state it reads, returning the draw operations it issues in order:
black background fill; the static placeholder when there are no clips and no
main audio; otherwise the active clip layer(s) per layerPlan, the active clip
overlays, and the matching lyric subtitle if any. -/
def drawCanvasCore (resolution : VideoResolution) (images : List ImageAsset)
    (audioAsset : Option AudioAsset) (currentTime : ℚ)
    (transitionEffect : TransitionEffect) (transitionDuration : ℚ)
    (lyrics : List Subtitle) (imageEls : String → Option ImgEl) :
    List DrawOp :=
  let W := (resolutionDims resolution).1
  let H := (resolutionDims resolution).2
  let scaleF := W / 1280
  if images.isEmpty ∧ audioAsset.isNone then
    [DrawOp.bgFill colorBlack, DrawOp.bgFill colorEmptyState, DrawOp.placeholder]
  else
    let clipOps :=
      if images.isEmpty then []
      else
        match findActiveAux images currentTime 0 0 with
        | some (i, start, img) =>
          let plan := layerPlan transitionEffect transitionDuration
            images.length currentTime i start img.duration
          (plan.map fun pr =>
            renderLayer W H scaleF images imageEls currentTime pr.1 pr.2).flatten
            ++ overlayOps W H scaleF currentTime start img
        | none => []
    let lyricOps :=
      if lyrics.isEmpty then []
      else
        match currentLyric lyrics currentTime with
        | some l => [DrawOp.subtitle l.text]
        | none => []
    DrawOp.bgFill colorBlack :: (clipOps ++ lyricOps)

/-- The component state observed by drawCanvas and the export handler,
including fields those functions do not read (play state, selection, volume
settings), used to state that compositing depends only on the clock and
project state. -/
structure AppModel where
  appState : AppState
  audioAsset : Option AudioAsset
  bgAudioAsset : Option AudioAsset
  mainAudioVolume : ℚ
  bgMusicVolume : ℚ
  lyrics : List Subtitle
  images : List ImageAsset
  isPlaying : Bool
  currentTime : ℚ
  selectedImageId : Option String
  transitionEffect : TransitionEffect
  transitionDuration : ℚ
  resolution : VideoResolution
  imageEls : String → Option ImgEl

/-- drawCanvas as a function of the full component state: it reads exactly
the resolution, clips, main audio presence, current time, transition
settings, lyrics and decoded-image table. -/
def drawCanvas (st : AppModel) : List DrawOp :=
  drawCanvasCore st.resolution st.images st.audioAsset st.currentTime
    st.transitionEffect st.transitionDuration st.lyrics st.imageEls

/-- Timeline.tsx lines 473-474: default duration of clips inserted by
processFiles, computed before the insertion from the audio duration and the
clip count after insertion, with a 5 second fallback without audio. -/
def nextDurationForInsert (audioAsset : Option AudioAsset)
    (existingCount insertedCount : ℕ) : ℚ :=
  match audioAsset with
  | some a =>
      if 0 < existingCount + insertedCount then
        a.duration / ((existingCount : ℚ) + (insertedCount : ℚ))
      else 5
  | none => 5

/-- Timeline.tsx lines 470-488 (processFiles), restricted to its effect on
the clip list: when at least one image file is given, append one new clip per
file with default crop, neutral adjustments, no overlays and the shared
default duration. -/
def processFiles (images : List ImageAsset) (audioAsset : Option AudioAsset)
    (newIds : List String) : List ImageAsset :=
  if newIds = [] then images
  else
    images ++ newIds.map fun nid =>
      { id := nid
        url := ""
        crop := some defaultCrop
        adjustments := some defaultAdjustments
        duration := nextDurationForInsert audioAsset images.length newIds.length
        textOverlays := [] }

/-- How the export is driven once started (Timeline.tsx lines 627-628):
by the ended event of the main audio element, or by a timer of the given length in
seconds when there is no main audio. -/
inductive ExportMode where
  | noExport
  | audioDriven
  | timer (seconds : ℚ)
deriving DecidableEq, Repr

/-- The observable outcome of one handleExport invocation once its recorder
callbacks have settled: whether a recorder was started and how it is driven,
the final app state, the final speakers gain value (if the node exists), and
whether a failure toast and a download were produced. -/
structure ExportOutcome where
  started : Bool
  mode : ExportMode
  appState : AppState
  speakersGain : Option ℚ
  errorToast : Bool
  downloadOffered : Bool
deriving DecidableEq, Repr

/-- Timeline.tsx lines 609-630 (handleExport): the guard on line 610 returns
before any state change when the canvas is missing or there are no clips and
no main audio; otherwise the speakers gain is muted to 0, and the try block
either starts a recorder (audio driven with main audio, a totalDuration timer
without) whose onstop handler offers the download, restores the gain to 1 and
returns to READY, or, on a setup exception, the catch block surfaces an error
toast, returns to READY and restores the gain to 1 with nothing recorded. -/
def handleExport (hasCanvas : Bool) (images : List ImageAsset)
    (audioAsset : Option AudioAsset) (speakersGain : Option ℚ)
    (setupOk : Bool) (st0 : AppState) : ExportOutcome :=
  if hasCanvas = false ∨ (images.length = 0 ∧ audioAsset = none) then
    ⟨false, ExportMode.noExport, st0, speakersGain, false, false⟩
  else
    if setupOk then
      match audioAsset with
      | some _ =>
          ⟨true, ExportMode.audioDriven, AppState.READY,
            speakersGain.map fun _ => 1, false, true⟩
      | none =>
          ⟨true, ExportMode.timer (totalDuration audioAsset images),
            AppState.READY, speakersGain.map fun _ => 1, false, true⟩
    else
      ⟨false, ExportMode.noExport, AppState.READY,
        speakersGain.map fun _ => 1, true, false⟩

/-- JS array.splice(i, 0, a): insert a at position i, clamped to the end. -/
def spliceInsert {α : Type} (l : List α) (i : ℕ) (a : α) : List α :=
  l.take i ++ a :: l.drop i

/-- Timeline.tsx lines 601-607 (handleTimelineReorder): identical indices are
a no-op; otherwise remove the clip at fromIndex and re-insert it at toIndex
of the shortened list. -/
def handleTimelineReorder (images : List ImageAsset)
    (fromIndex toIndex : ℕ) : List ImageAsset :=
  if fromIndex = toIndex then images
  else
    match images.get? fromIndex with
    | none => images
    | some movedItem =>
        spliceInsert (images.take fromIndex ++ images.drop (fromIndex + 1))
          toIndex movedItem

/-- Swap the elements at positions i and i + 1, unchanged when i + 1 is out
of range.  Used to embed the adjacent swaps of moveSelectedImageOrder. -/
def swapAt : List ImageAsset → ℕ → List ImageAsset
  | a :: b :: rest, 0 => b :: a :: rest
  | a :: rest, n + 1 => a :: swapAt rest n
  | l, _ => l

/-- Direction argument of moveSelectedImageOrder. -/
inductive MoveDirection where
  | forward
  | backward
deriving DecidableEq, Repr

/-- Timeline.tsx lines 550-564 (moveSelectedImageOrder): find the selected
clip and swap it with its neighbor in the requested direction when that
neighbor exists. -/
def moveSelectedImageOrder (images : List ImageAsset)
    (selectedImageId : Option String) (direction : MoveDirection) :
    List ImageAsset :=
  match selectedImageId with
  | none => images
  | some sid =>
    match images.findIdx? (fun img => img.id == sid) with
    | none => images
    | some index =>
      match direction with
      | MoveDirection.backward =>
          if 0 < index then swapAt images (index - 1) else images
      | MoveDirection.forward =>
          if index < images.length - 1 then swapAt images index else images

/-! Concrete fixtures used by the counterexamples and witnesses below. -/

/-- A main audio asset of duration 3 seconds. -/
def audioA3 : AudioAsset := ⟨"a", 3⟩

/-- The subtitle of example scenario B: start 2, end 4, text Hello. -/
def helloSub : Subtitle := ⟨"s1", 2, 4, "Hello"⟩

/-- A 4-second clip with no crop, adjustments or overlays. -/
def clip4 : ImageAsset := ⟨"c1", "", none, none, 4, []⟩

/-- A 6-second clip with no crop, adjustments or overlays. -/
def clip6 : ImageAsset := ⟨"c2", "", none, none, 6, []⟩

/-- Example scenario A: two clips of durations 4 and 6 seconds. -/
def scenarioA : List ImageAsset := [clip4, clip6]

/-- A component state over scenario A with no audio and a fade transition. -/
def modelA : AppModel :=
  { appState := AppState.READY
    audioAsset := none
    bgAudioAsset := none
    mainAudioVolume := 1
    bgMusicVolume := 0.2
    lyrics := [helloSub]
    images := scenarioA
    isPlaying := true
    currentTime := 3.6
    selectedImageId := none
    transitionEffect := TransitionEffect.fade
    transitionDuration := 1
    resolution := VideoResolution.r720p
    imageEls := fun _ => none }

/-- The same state as modelA except for the play flag, which drawCanvas does
not read. -/
def modelB : AppModel := { modelA with isPlaying := false }

/-! Helper lemmas. -/

/-- jsOr with fallback 0 is the identity. -/
theorem jsOr_zero (a : ℚ) : jsOr a 0 = a := by
  unfold jsOr; split <;> simp_all

/-- The duration fold of totalImageDuration is the sum of the durations. -/
theorem totalImageDuration_eq (images : List ImageAsset) :
    totalImageDuration images = (images.map ImageAsset.duration).sum := by
  have key : ∀ (l : List ImageAsset) (a : ℚ),
      l.foldl (fun acc img => acc + img.duration) a =
        a + (l.map ImageAsset.duration).sum := by
    intro l
    induction l with
    | nil => intro a; simp
    | cons hd tl ih =>
      intro a
      simp only [List.foldl_cons, List.map_cons, List.sum_cons, ih]
      ring
  simpa using key images 0

/-- cumStart at one step further accumulates the duration of the crossed
clip (0 past the end). -/
theorem cumStart_succ (images : List ImageAsset) :
    ∀ k, cumStart images (k + 1) = cumStart images k + durAt images k := by
  induction images with
  | nil => intro k; simp [cumStart, durAt]
  | cons hd tl ih =>
    intro k
    cases k with
    | zero => simp [cumStart, durAt]
    | succ k =>
      simp only [cumStart, durAt, List.take_succ_cons, List.map_cons,
        List.sum_cons, List.get?_cons_succ] at *
      rw [ih k]
      ring

/-- Clip durations bound below by 0 give nonnegative durAt. -/
theorem durAt_nonneg (images : List ImageAsset)
    (hpos : ∀ img ∈ images, 0 ≤ img.duration) (k : ℕ) :
    0 ≤ durAt images k := by
  unfold durAt
  cases hk : images.get? k with
  | none => simp
  | some img => exact hpos img (List.get?_mem hk)

/-- cumStart is monotone when all durations are nonnegative. -/
theorem cumStart_mono (images : List ImageAsset)
    (hpos : ∀ img ∈ images, 0 ≤ img.duration) {i j : ℕ} (hij : i ≤ j) :
    cumStart images i ≤ cumStart images j := by
  induction j, hij using Nat.le_induction with
  | base => exact le_refl _
  | succ j _ ih =>
    rw [cumStart_succ]
    have := durAt_nonneg images hpos j
    linarith

/-- cumStart never exceeds the total duration sum when durations are
nonnegative. -/
theorem cumStart_le_sum (images : List ImageAsset)
    (hpos : ∀ img ∈ images, 0 ≤ img.duration) (k : ℕ) :
    cumStart images k ≤ (images.map ImageAsset.duration).sum := by
  have hsplit : (images.map ImageAsset.duration).sum =
      cumStart images k + ((images.drop k).map ImageAsset.duration).sum := by
    rw [cumStart, ← List.sum_append, ← List.map_append, List.take_append_drop]
  have hnn : 0 ≤ ((images.drop k).map ImageAsset.duration).sum := by
    apply List.sum_nonneg
    intro x hx
    obtain ⟨img, hmem, rfl⟩ := List.mem_map.mp hx
    exact hpos img (List.drop_subset k images hmem)
  linarith

/-- Soundness of the clip-scanning loop: a hit is the interval containing t. -/
theorem findActiveAux_some_spec (images : List ImageAsset) (t : ℚ) :
    ∀ (acc : ℚ) (i0 j : ℕ) (s : ℚ) (img : ImageAsset),
      findActiveAux images t acc i0 = some (j, s, img) →
      ∃ k : ℕ, k < images.length ∧ j = i0 + k ∧ images.get? k = some img ∧
        s = acc + cumStart images k ∧ s ≤ t ∧ t < s + img.duration := by
  induction images with
  | nil => intro acc i0 j s img h; simp [findActiveAux] at h
  | cons hd tl ih =>
    intro acc i0 j s img h
    rw [findActiveAux] at h
    by_cases hc : acc ≤ t ∧ t < acc + hd.duration
    · rw [if_pos hc] at h
      obtain ⟨h1, h2, h3⟩ := by simpa using h
      subst h1; subst h2; subst h3
      exact ⟨0, by simp, by omega, by simp, by simp [cumStart], hc.1, hc.2⟩
    · rw [if_neg hc] at h
      obtain ⟨k, hk, hj, hget, hs, hle, hlt⟩ :=
        ih (acc + hd.duration) (i0 + 1) j s img h
      refine ⟨k + 1, by simpa using hk, by omega, by simpa using hget, ?_, hle, hlt⟩
      rw [hs]
      simp only [cumStart, List.take_succ_cons, List.map_cons, List.sum_cons]
      ring

/-- Completeness of the clip-scanning loop: a miss means t is at or past the
end of the scanned clips. -/
theorem findActiveAux_none_spec (images : List ImageAsset) (t : ℚ) :
    ∀ (acc : ℚ) (i0 : ℕ), findActiveAux images t acc i0 = none → acc ≤ t →
      acc + (images.map ImageAsset.duration).sum ≤ t := by
  induction images with
  | nil => intro acc i0 _ hle; simpa using hle
  | cons hd tl ih =>
    intro acc i0 h hle
    rw [findActiveAux] at h
    by_cases hc : acc ≤ t ∧ t < acc + hd.duration
    · rw [if_pos hc] at h; exact absurd h (by simp)
    · rw [if_neg hc] at h
      push_neg at hc
      have hd2 : acc + hd.duration ≤ t := hc hle
      have := ih (acc + hd.duration) (i0 + 1) h hd2
      simp only [List.map_cons, List.sum_cons]
      linarith

/-- Clip intervals are pairwise disjoint when durations are nonnegative. -/
theorem active_interval_unique (images : List ImageAsset)
    (hpos : ∀ img ∈ images, 0 ≤ img.duration) (t : ℚ) {i j : ℕ}
    (h1 : cumStart images i ≤ t ∧ t < cumStart images i + durAt images i)
    (h2 : cumStart images j ≤ t ∧ t < cumStart images j + durAt images j) :
    i = j := by
  have key : ∀ {a b : ℕ},
      cumStart images a ≤ t ∧ t < cumStart images a + durAt images a →
      cumStart images b ≤ t ∧ t < cumStart images b + durAt images b →
      a < b → False := by
    intro a b ha hb hab
    have h3 : cumStart images (a + 1) ≤ cumStart images b :=
      cumStart_mono images hpos hab
    rw [cumStart_succ] at h3
    linarith [ha.2, hb.1]
  rcases lt_trichotomy i j with h | h | h
  · exact absurd (key h1 h2 h) (by simp)
  · exact h
  · exact absurd (key h2 h1 h) (by simp)

/-! Claim theorems. -/

/-- C1 counterexample: with a 3-second main audio and no clips, the code
computes totalDuration = 10, not max(audioDuration, sum of clip durations)
= 3, so the 10-second floor is not restricted to the case where both values
are zero. -/
theorem c1_cex :
    totalDuration (some audioA3) [] = 10 ∧
    max (((some audioA3).map AudioAsset.duration).getD 0)
      (totalImageDuration []) = 3 ∧
    (10 : ℚ) ≠ 3 := by
  refine ⟨by decide, by decide, by norm_num⟩

/-- C1 (amended): totalDuration is max(mainAudioDuration, sum of clip
durations) whenever the clip-duration sum is nonzero; whenever the
clip-duration sum is zero (in particular with no clips), the 10-second floor
applies even when main audio is present, giving max(mainAudioDuration, 10). -/
theorem c1_total_duration (audioAsset : Option AudioAsset)
    (images : List ImageAsset) :
    (totalImageDuration images ≠ 0 →
      totalDuration audioAsset images =
        max ((audioAsset.map AudioAsset.duration).getD 0)
          (totalImageDuration images)) ∧
    (totalImageDuration images = 0 →
      totalDuration audioAsset images =
        max ((audioAsset.map AudioAsset.duration).getD 0) 10) := by
  constructor
  · intro h
    rw [totalDuration, jsOr_zero, jsOr, if_neg h]
  · intro h
    rw [totalDuration, jsOr_zero, jsOr, if_pos h]

/-- C1 witness: the amended statement evaluated with a 3-second main audio
and no clips. -/
theorem c1_witness :
    totalDuration (some audioA3) [] =
      max (((some audioA3).map AudioAsset.duration).getD 0) 10 :=
  (c1_total_duration (some audioA3) []).2 (by decide)

/-- C3 counterexample: the lyric lookup of the compositor uses an inclusive upper
bound (currentTime <= endTime), so the subtitle with interval [2,4] is still
drawn at t = 4, where the claimed half-open interval [2,4) excludes it. -/
theorem c3_cex :
    currentLyric [helloSub] 4 = some helloSub ∧
    ¬((4 : ℚ) < helloSub.endTime) := by
  constructor
  · norm_num [currentLyric, helloSub, List.find?]
  · norm_num [helloSub]

/-- C3 (amended): the compositor draws the first subtitle whose closed
interval [startTime, endTime] contains the current global time; a drawn
subtitle always satisfies startTime <= t <= endTime, some subtitle is drawn
exactly when one contains t, and the scenario subtitle {2,4} is drawn both at
t = 3 and at the t = 4 boundary (end inclusive), and not at t = 4.5. -/
theorem c3_subtitle_interval :
    (∀ (lyrics : List Subtitle) (t : ℚ) (l : Subtitle),
        currentLyric lyrics t = some l →
        l ∈ lyrics ∧ l.startTime ≤ t ∧ t ≤ l.endTime) ∧
    (∀ (lyrics : List Subtitle) (t : ℚ),
        (currentLyric lyrics t).isSome = true ↔
          ∃ l ∈ lyrics, l.startTime ≤ t ∧ t ≤ l.endTime) ∧
    currentLyric [helloSub] 3 = some helloSub ∧
    currentLyric [helloSub] 4 = some helloSub ∧
    currentLyric [helloSub] (9/2) = none := by
  refine ⟨?_, ?_, ?_, ?_, ?_⟩
  · intro lyrics t l h
    have hmem := List.mem_of_find?_eq_some h
    have hp := List.find?_some h
    simp only [decide_eq_true_eq] at hp
    exact ⟨hmem, hp.1, hp.2⟩
  · intro lyrics t
    rw [currentLyric, List.find?_isSome]
    constructor
    · rintro ⟨l, hmem, hp⟩
      simp only [decide_eq_true_eq] at hp
      exact ⟨l, hmem, hp⟩
    · rintro ⟨l, hmem, hp⟩
      exact ⟨l, hmem, by simpa using hp⟩
  · norm_num [currentLyric, helloSub, List.find?]
  · norm_num [currentLyric, helloSub, List.find?]
  · norm_num [currentLyric, helloSub, List.find?]

/-- C3 witness: the interval facts of the drawn subtitle at t = 3, obtained
from the amended theorem. -/
theorem c3_witness :
    helloSub ∈ [helloSub] ∧ helloSub.startTime ≤ (3 : ℚ) ∧
      (3 : ℚ) ≤ helloSub.endTime :=
  c3_subtitle_interval.1 [helloSub] 3 helloSub
    (by norm_num [currentLyric, helloSub, List.find?])

/-- C5 counterexample: starting an export with no clips and no main audio
hits the guard of handleExport and does nothing at all: no recorder is
started, the mode is not the claimed totalDuration timer (the floor value 10)
and no output is offered. -/
theorem c5_cex :
    totalDuration none ([] : List ImageAsset) = 10 ∧
    (handleExport true [] none (some 1) true AppState.READY).started = false ∧
    (handleExport true [] none (some 1) true AppState.READY).mode =
      ExportMode.noExport ∧
    (handleExport true [] none (some 1) true AppState.READY).downloadOffered
      = false ∧
    ExportMode.noExport ≠ ExportMode.timer 10 := by
  refine ⟨by decide, by decide, by decide, by decide, by simp⟩

/-- C5 (amended): an export started with no clips and no main audio is
rejected by the guard and leaves every observable unchanged with no download;
the timer fallback runs only when clips exist and no main audio is loaded,
and then the recorder is driven for exactly totalDuration seconds and an
output is offered. -/
theorem c5_export_guard :
    (∀ (sp : Option ℚ) (st0 : AppState),
        handleExport true [] none sp true st0 =
          ⟨false, ExportMode.noExport, st0, sp, false, false⟩) ∧
    (∀ (images : List ImageAsset) (sp : Option ℚ) (st0 : AppState),
        images ≠ [] →
        (handleExport true images none sp true st0).started = true ∧
        (handleExport true images none sp true st0).mode =
          ExportMode.timer (totalDuration none images) ∧
        (handleExport true images none sp true st0).downloadOffered = true) := by
  constructor
  · intro sp st0
    simp [handleExport]
  · intro images sp st0 hne
    simp [handleExport, hne]

/-- C5 witness: the amended statement evaluated on one 4-second clip and no
audio: the export starts and is timer driven for totalDuration seconds. -/
theorem c5_witness :
    (handleExport true [clip4] none (some 1) true AppState.READY).started
      = true ∧
    (handleExport true [clip4] none (some 1) true AppState.READY).mode =
      ExportMode.timer (totalDuration none [clip4]) ∧
    (handleExport true [clip4] none (some 1) true
      AppState.READY).downloadOffered = true :=
  c5_export_guard.2 [clip4] (some 1) AppState.READY (by simp)

/-- C9: any setup exception inside handleExport (once the guard has passed)
aborts the export: the app returns to READY, the speakers gain is restored to
its unmuted value 1 whenever the gain node exists, a failure toast is
surfaced, and no download is offered. -/
theorem c9_export_error_cleanup (images : List ImageAsset)
    (audioAsset : Option AudioAsset) (sp : Option ℚ) (st0 : AppState)
    (hguard : ¬(images.length = 0 ∧ audioAsset = none)) :
    (handleExport true images audioAsset sp false st0).appState =
      AppState.READY ∧
    (handleExport true images audioAsset sp false st0).speakersGain =
      sp.map (fun _ => 1) ∧
    (handleExport true images audioAsset sp false st0).errorToast = true ∧
    (handleExport true images audioAsset sp false st0).downloadOffered
      = false := by
  have hguard2 : ¬(images = [] ∧ audioAsset = none) := by
    rintro ⟨h1, h2⟩
    exact hguard ⟨by simp [h1], h2⟩
  simp [handleExport, hguard2]

/-- C9 witness: the cleanup facts at a concrete failing export over one clip
with an existing speakers gain node. -/
theorem c9_witness :
    (handleExport true [clip4] none (some 1) false
      AppState.IDLE).appState = AppState.READY ∧
    (handleExport true [clip4] none (some 1) false
      AppState.IDLE).speakersGain = (some (1 : ℚ)).map (fun _ => 1) ∧
    (handleExport true [clip4] none (some 1) false
      AppState.IDLE).errorToast = true ∧
    (handleExport true [clip4] none (some 1) false
      AppState.IDLE).downloadOffered = false :=
  c9_export_error_cleanup [clip4] none (some 1) AppState.IDLE (by simp)

/-- C8: every clip inserted by processFiles receives the shared default
duration, which is the main-audio duration divided by the clip count after
insertion (existing plus inserted) when audio is loaded, and the fixed 5
second fallback when no audio is loaded. -/
theorem c8_insert_default_duration (images : List ImageAsset)
    (audioAsset : Option AudioAsset) (newIds : List String)
    (hne : newIds ≠ []) :
    ((processFiles images audioAsset newIds).drop images.length =
      newIds.map fun nid =>
        ⟨nid, "", some defaultCrop, some defaultAdjustments,
          nextDurationForInsert audioAsset images.length newIds.length, []⟩) ∧
    (∀ img ∈ (processFiles images audioAsset newIds).drop images.length,
        img.duration =
          nextDurationForInsert audioAsset images.length newIds.length) ∧
    (∀ a : AudioAsset, audioAsset = some a →
        nextDurationForInsert audioAsset images.length newIds.length =
          a.duration / ((images.length : ℚ) + (newIds.length : ℚ))) ∧
    (audioAsset = none →
        nextDurationForInsert audioAsset images.length newIds.length = 5) := by
  have hdrop : (processFiles images audioAsset newIds).drop images.length =
      newIds.map fun nid =>
        ⟨nid, "", some defaultCrop, some defaultAdjustments,
          nextDurationForInsert audioAsset images.length newIds.length, []⟩ := by
    rw [processFiles, if_neg hne]
    exact List.drop_left images _
  refine ⟨hdrop, ?_, ?_, ?_⟩
  · intro img hmem
    rw [hdrop] at hmem
    obtain ⟨nid, _, rfl⟩ := List.mem_map.mp hmem
    rfl
  · intro a ha
    subst ha
    rw [nextDurationForInsert, if_pos]
    have := List.length_pos.mpr hne
    omega
  · intro ha
    subst ha
    rfl

/-- C8 witness: inserting two images into an empty project with a 3-second
main audio gives each new clip duration 3 / (0 + 2). -/
theorem c8_witness :
    nextDurationForInsert (some audioA3) ([] : List ImageAsset).length
        (["n1", "n2"] : List String).length =
      audioA3.duration /
        ((([] : List ImageAsset).length : ℚ) +
          ((["n1", "n2"] : List String).length : ℚ)) :=
  (c8_insert_default_duration [] (some audioA3) ["n1", "n2"]
    (by simp)).2.2.1 audioA3 rfl

/-- C6: overlay animation progress is clamped to [0,1] and monotone
non-decreasing in the local elapsed time, the typewriter character count is
floor(length * progress), and the visible typewriter text length is monotone
non-decreasing in the local elapsed time. -/
theorem c6_overlay_animation (rt1 rt2 animationDuration : ℚ)
    (text : List Char) (had : 0 ≤ animationDuration) :
    (0 ≤ animProgress rt1 animationDuration ∧
      animProgress rt1 animationDuration ≤ 1) ∧
    (rt1 ≤ rt2 →
      animProgress rt1 animationDuration ≤ animProgress rt2 animationDuration) ∧
    typewriterCount text (animProgress rt1 animationDuration) =
      Nat.floor ((text.length : ℚ) * animProgress rt1 animationDuration) ∧
    (rt1 ≤ rt2 →
      (text.take
          (typewriterCount text (animProgress rt1 animationDuration))).length ≤
      (text.take
          (typewriterCount text (animProgress rt2 animationDuration))).length) := by
  have hpos : 0 < jsOr animationDuration 1.5 := by
    rw [jsOr]
    split
    · norm_num
    · rename_i hne
      exact lt_of_le_of_ne had (Ne.symm hne)
  have hmono : rt1 ≤ rt2 →
      animProgress rt1 animationDuration ≤ animProgress rt2 animationDuration := by
    intro h12
    rw [animProgress, animProgress]
    have hdiv : rt1 / jsOr animationDuration 1.5 ≤
        rt2 / jsOr animationDuration 1.5 := by
      rw [div_eq_mul_inv, div_eq_mul_inv]
      exact mul_le_mul_of_nonneg_right h12 (inv_nonneg.mpr hpos.le)
    exact min_le_min (max_le_max hdiv (le_refl 0)) (le_refl 1)
  refine ⟨⟨?_, ?_⟩, hmono, rfl, ?_⟩
  · exact le_min (le_max_right _ 0) zero_le_one
  · exact min_le_right _ 1
  · intro h12
    have hcount : typewriterCount text (animProgress rt1 animationDuration) ≤
        typewriterCount text (animProgress rt2 animationDuration) := by
      rw [typewriterCount, typewriterCount]
      exact Nat.floor_le_floor
        (mul_le_mul_of_nonneg_left (hmono h12) (by positivity))
    rw [List.length_take, List.length_take]
    exact min_le_min hcount (le_refl _)

/-- C6 witness: the animation facts at local times 1 and 2 with a 2-second
animation over the text Hi. -/
theorem c6_witness :
    (0 ≤ animProgress 1 2 ∧ animProgress 1 2 ≤ 1) ∧
    ((1 : ℚ) ≤ 2 → animProgress 1 2 ≤ animProgress 2 2) ∧
    typewriterCount ("Hi".toList) (animProgress 1 2) =
      Nat.floor ((("Hi".toList).length : ℚ) * animProgress 1 2) ∧
    ((1 : ℚ) ≤ 2 →
      (("Hi".toList).take (typewriterCount ("Hi".toList) (animProgress 1 2))).length ≤
      (("Hi".toList).take (typewriterCount ("Hi".toList) (animProgress 2 2))).length) :=
  c6_overlay_animation 1 2 2 ("Hi".toList) (by norm_num)

/-- C2 counterexample: in scenario A (clips of 4 and 6 seconds, transition
duration 1) at t = 3.6 the active clip is index 0 and the transition is
active, but the blend opacity of the incoming layer (the transition progress)
is 3/5 = 0.6, not the claimed 0.4. -/
theorem c2_cex :
    findActiveAux scenarioA 3.6 0 0 = some (0, 0, clip4) ∧
    layerPlan TransitionEffect.fade 1 scenarioA.length 3.6 0 0 clip4.duration
      = [(0, 1), (1, 3/5)] ∧
    (3/5 : ℚ) ≠ 2/5 := by
  refine ⟨by norm_num [findActiveAux, scenarioA, clip4, clip6], ?_, by norm_num⟩
  rw [layerPlan, if_pos]
  · norm_num [clip4]
  · refine ⟨by simp, ?_, by simp [scenarioA]⟩
    norm_num [clip4]

/-- C2 (amended): for a clip resolved as active (so local time lies in
[0, duration)) with a non-none transition effect and a following clip, the
transition window is exactly [duration - min(transitionDuration, duration/2),
duration): inside it drawCanvas renders the active clip at opacity 1 plus the
next clip at the linear elapsed-window ratio, outside it only the active clip
at opacity 1; in scenario A at t = 3.6 that ratio is 0.6. -/
theorem c2_transition_window (images : List ImageAsset) (t td : ℚ)
    (eff : TransitionEffect) (i : ℕ) (start : ℚ) (img : ImageAsset)
    (hfa : findActiveAux images t 0 0 = some (i, start, img))
    (heff : eff ≠ TransitionEffect.none) (hlast : i < images.length - 1)
    (htd : 0 < td) (hd : 0 < img.duration) :
    (0 ≤ t - start ∧ t - start < img.duration) ∧
    (img.duration - min td (img.duration / 2) ≤ t - start →
      layerPlan eff td images.length t i start img.duration =
        [(i, 1), (i + 1,
          ((t - start) - (img.duration - min td (img.duration / 2))) /
            min td (img.duration / 2))]) ∧
    (t - start < img.duration - min td (img.duration / 2) →
      layerPlan eff td images.length t i start img.duration = [(i, 1)]) := by
  obtain ⟨k, hk, hj, hget, hs, hle, hlt⟩ :=
    findActiveAux_some_spec images t 0 0 i start img hfa
  have hw0 : 0 < min td (img.duration / 2) := lt_min htd (by linarith)
  refine ⟨⟨by linarith, by linarith⟩, ?_, ?_⟩
  · intro hwin
    rw [layerPlan, if_pos ⟨heff, by linarith, hlast⟩]
    have hval : 1 - (img.duration - (t - start)) / min td (img.duration / 2) =
        ((t - start) - (img.duration - min td (img.duration / 2))) /
          min td (img.duration / 2) := by
      field_simp
      ring
    rw [hval]
  · intro hout
    rw [layerPlan, if_neg]
    rintro ⟨-, h2, -⟩
    linarith

/-- C2 witness: the amended statement evaluated in scenario A at t = 3.6,
where the window holds and the blend opacity is the elapsed-window ratio. -/
theorem c2_witness :
    layerPlan TransitionEffect.fade 1 scenarioA.length 3.6 0 0 clip4.duration
      = [(0, 1), (1,
        (((3.6 : ℚ) - 0) - (clip4.duration - min 1 (clip4.duration / 2))) /
          min 1 (clip4.duration / 2))] :=
  (c2_transition_window scenarioA 3.6 1 TransitionEffect.fade 0 0 clip4
    (by norm_num [findActiveAux, scenarioA, clip4, clip6]) (by simp)
    (by simp [scenarioA]) (by norm_num) (by norm_num [clip4])).2.1
    (by norm_num [clip4])

/-- C4: clock resolution via getActiveImageIndex returns -1 on an empty clip
list; on a nonempty list with nonnegative durations and t >= 0 it returns
exactly one index: the clip whose interval [cumulative start, cumulative
start + duration) contains t when t is before the total visual duration, the
last clip when t is at or past it; any containing interval index coincides
with it, and global time decomposes exactly as cumulative start plus local
time. -/
theorem c4_clock_resolution :
    (∀ t : ℚ, getActiveImageIndex [] t = -1) ∧
    (∀ (images : List ImageAsset) (t : ℚ), images ≠ [] →
      (∀ img ∈ images, 0 ≤ img.duration) → 0 ≤ t →
      ∃ i : ℕ, getActiveImageIndex images t = (i : ℤ) ∧ i < images.length ∧
        (t < totalImageDuration images →
          cumStart images i ≤ t ∧ t < cumStart images i + durAt images i) ∧
        (totalImageDuration images ≤ t → i = images.length - 1) ∧
        (∀ j : ℕ, cumStart images j ≤ t →
          t < cumStart images j + durAt images j → j = i) ∧
        cumStart images i + (t - cumStart images i) = t) := by
  constructor
  · intro t
    simp [getActiveImageIndex]
  · intro images t hne hpos ht
    have hlen0 : images.length ≠ 0 := fun h0 => hne (List.length_eq_zero.mp h0)
    cases hfa : findActiveAux images t 0 0 with
    | some trip =>
      obtain ⟨i, start, img⟩ := trip
      obtain ⟨k, hk, hj, hget, hs, hle, hlt⟩ :=
        findActiveAux_some_spec images t 0 0 i start img hfa
      have hik : i = k := by omega
      subst hik
      have hstart : start = cumStart images i := by rw [hs]; ring
      have hdur : durAt images i = img.duration := by rw [durAt, hget]
      have hcont : cumStart images i ≤ t ∧
          t < cumStart images i + durAt images i := by
        rw [hdur, ← hstart]
        exact ⟨hle, hlt⟩
      refine ⟨i, ?_, hk, fun _ => hcont, ?_, ?_, by ring⟩
      · rw [getActiveImageIndex, if_neg hlen0, hfa]
      · intro htot
        exfalso
        have hstep : cumStart images (i + 1) =
            cumStart images i + durAt images i := cumStart_succ images i
        have hbound : cumStart images (i + 1) ≤
            (images.map ImageAsset.duration).sum := cumStart_le_sum images hpos _
        rw [totalImageDuration_eq] at htot
        linarith [hcont.2]
      · intro j hj1 hj2
        exact active_interval_unique images hpos t ⟨hj1, hj2⟩ hcont
    | none =>
      have htot : totalImageDuration images ≤ t := by
        rw [totalImageDuration_eq]
        have := findActiveAux_none_spec images t 0 0 hfa ht
        linarith
      have hcover : ∀ j : ℕ, cumStart images j ≤ t →
          t < cumStart images j + durAt images j → False := by
        intro j hj1 hj2
        have hstep : cumStart images (j + 1) =
            cumStart images j + durAt images j := cumStart_succ images j
        have hbound : cumStart images (j + 1) ≤
            (images.map ImageAsset.duration).sum := cumStart_le_sum images hpos _
        rw [totalImageDuration_eq] at htot
        linarith
      refine ⟨images.length - 1, ?_, by omega, ?_, fun _ => rfl, ?_, by ring⟩
      · rw [getActiveImageIndex, if_neg hlen0, hfa]
        show (images.length : ℤ) - 1 = ((images.length - 1 : ℕ) : ℤ)
        omega
      · intro hlt2
        exact absurd hlt2 (not_lt.mpr htot)
      · intro j hj1 hj2
        exact absurd (hcover j hj1 hj2) (by simp)

/-- C4 witness: in scenario A at t = 9.5 the resolved index facts hold. -/
theorem c4_witness :
    ∃ i : ℕ, getActiveImageIndex scenarioA (9.5) = (i : ℤ) ∧
      i < scenarioA.length ∧
      ((9.5 : ℚ) < totalImageDuration scenarioA →
        cumStart scenarioA i ≤ 9.5 ∧
          (9.5 : ℚ) < cumStart scenarioA i + durAt scenarioA i) ∧
      (totalImageDuration scenarioA ≤ 9.5 → i = scenarioA.length - 1) ∧
      (∀ j : ℕ, cumStart scenarioA j ≤ 9.5 →
        (9.5 : ℚ) < cumStart scenarioA j + durAt scenarioA j → j = i) ∧
      cumStart scenarioA i + ((9.5 : ℚ) - cumStart scenarioA i) = 9.5 :=
  c4_clock_resolution.2 scenarioA (9.5) (by simp [scenarioA])
    (by
      intro img hmem
      simp only [scenarioA, List.mem_cons, List.mem_singleton] at hmem
      rcases hmem with rfl | rfl | h
      · norm_num [clip4]
      · norm_num [clip6]
      · simp at h)
    (by norm_num)

/-- C7: drawCanvas is a pure function of the clock state and project state it
reads (resolution, clips, main audio presence, current time, transition
settings, lyrics, decoded images): two invocations on states agreeing on
those fields produce identical draw operations, regardless of any other
component state such as the play flag, selection or volumes, and with no
state carried between calls. -/
theorem c7_compositor_pure (s1 s2 : AppModel)
    (h1 : s1.resolution = s2.resolution) (h2 : s1.images = s2.images)
    (h3 : s1.audioAsset = s2.audioAsset)
    (h4 : s1.currentTime = s2.currentTime)
    (h5 : s1.transitionEffect = s2.transitionEffect)
    (h6 : s1.transitionDuration = s2.transitionDuration)
    (h7 : s1.lyrics = s2.lyrics) (h8 : s1.imageEls = s2.imageEls) :
    drawCanvas s1 = drawCanvas s2 := by
  rw [drawCanvas, drawCanvas, h1, h2, h3, h4, h5, h6, h7, h8]

/-- C7 witness: two concrete states differing only in the play flag give
identical frames. -/
theorem c7_witness : drawCanvas modelA = drawCanvas modelB :=
  c7_compositor_pure modelA modelB rfl rfl rfl rfl rfl rfl rfl rfl

/-- Adjacent swaps permute the list. -/
theorem swapAt_perm : ∀ (l : List ImageAsset) (n : ℕ), (swapAt l n).Perm l := by
  intro l
  induction l with
  | nil => intro n; simp [swapAt]
  | cons a tl ih =>
    intro n
    cases n with
    | zero =>
      cases tl with
      | nil => simp [swapAt]
      | cons b rest => exact List.Perm.swap a b rest
    | succ n =>
      have hstep : swapAt (a :: tl) (n + 1) = a :: swapAt tl n := by
        cases tl <;> rfl
      rw [hstep]
      exact (ih n).cons a

/-- handleTimelineReorder permutes the clip list for a valid source index. -/
theorem handleTimelineReorder_perm (images : List ImageAsset) (f t : ℕ)
    (hf : f < images.length) :
    (handleTimelineReorder images f t).Perm images := by
  by_cases hft : f = t
  · simp [handleTimelineReorder, hft]
  · have hget : images.get? f = some (images.get ⟨f, hf⟩) :=
      List.get?_eq_get hf
    rw [handleTimelineReorder, if_neg hft, hget]
    have h1 : (spliceInsert (images.take f ++ images.drop (f + 1)) t
        (images.get ⟨f, hf⟩)).Perm
        (images.get ⟨f, hf⟩ :: (images.take f ++ images.drop (f + 1))) := by
      rw [spliceInsert]
      have hp := @List.perm_middle _ (images.get ⟨f, hf⟩)
        ((images.take f ++ images.drop (f + 1)).take t)
        ((images.take f ++ images.drop (f + 1)).drop t)
      rw [List.take_append_drop] at hp
      exact hp
    have h2 : images.Perm
        (images.get ⟨f, hf⟩ :: (images.take f ++ images.drop (f + 1))) := by
      conv_lhs => rw [← List.take_append_drop f images,
        List.drop_eq_getElem_cons hf]
      exact List.perm_middle
    exact h1.trans h2.symm

/-- moveSelectedImageOrder permutes the clip list unconditionally. -/
theorem moveSelectedImageOrder_perm (images : List ImageAsset)
    (sid : Option String) (dir : MoveDirection) :
    (moveSelectedImageOrder images sid dir).Perm images := by
  cases sid with
  | none => exact List.Perm.refl images
  | some s =>
    show (match images.findIdx? (fun (img : ImageAsset) => img.id == s) with
      | none => images
      | some index =>
        match dir with
        | MoveDirection.backward =>
            if 0 < index then swapAt images (index - 1) else images
        | MoveDirection.forward =>
            if index < images.length - 1 then swapAt images index
            else images).Perm images
    cases images.findIdx? (fun (img : ImageAsset) => img.id == s) with
    | none => exact List.Perm.refl images
    | some index =>
      cases dir with
      | backward =>
        show (if 0 < index then swapAt images (index - 1) else images).Perm
          images
        split
        · exact swapAt_perm images (index - 1)
        · exact List.Perm.refl images
      | forward =>
        show (if index < images.length - 1 then swapAt images index
          else images).Perm images
        split
        · exact swapAt_perm images index
        · exact List.Perm.refl images

/-- Consequences of a clip-list permutation: equal multiset, length and total
visual duration. -/
theorem perm_clip_facts (l1 l2 : List ImageAsset) (h : l1.Perm l2) :
    (l1 : Multiset ImageAsset) = (l2 : Multiset ImageAsset) ∧
      l1.length = l2.length ∧ totalImageDuration l1 = totalImageDuration l2 :=
  ⟨Multiset.coe_eq_coe.mpr h, h.length_eq, by
    rw [totalImageDuration_eq, totalImageDuration_eq]
    exact (h.map ImageAsset.duration).sum_eq⟩

/-- C10: reordering clips is a pure permutation: a drag-drop reorder with a
valid source index and either arrangement move yields a list with the same
clip multiset, same length and same total visual duration, and a reorder
with equal indices leaves the list identical. -/
theorem c10_reorder_is_permutation :
    (∀ (images : List ImageAsset) (f t : ℕ), f = t →
        handleTimelineReorder images f t = images) ∧
    (∀ (images : List ImageAsset) (f t : ℕ), f < images.length →
        (handleTimelineReorder images f t).Perm images ∧
        ((handleTimelineReorder images f t : Multiset ImageAsset) =
          (images : Multiset ImageAsset)) ∧
        (handleTimelineReorder images f t).length = images.length ∧
        totalImageDuration (handleTimelineReorder images f t) =
          totalImageDuration images) ∧
    (∀ (images : List ImageAsset) (sid : Option String) (dir : MoveDirection),
        (moveSelectedImageOrder images sid dir).Perm images ∧
        ((moveSelectedImageOrder images sid dir : Multiset ImageAsset) =
          (images : Multiset ImageAsset)) ∧
        (moveSelectedImageOrder images sid dir).length = images.length ∧
        totalImageDuration (moveSelectedImageOrder images sid dir) =
          totalImageDuration images) := by
  refine ⟨?_, ?_, ?_⟩
  · intro images f t hft
    rw [handleTimelineReorder, if_pos hft]
  · intro images f t hf
    have hperm := handleTimelineReorder_perm images f t hf
    obtain ⟨hm, hl, hs⟩ := perm_clip_facts _ _ hperm
    exact ⟨hperm, hm, hl, hs⟩
  · intro images sid dir
    have hperm := moveSelectedImageOrder_perm images sid dir
    obtain ⟨hm, hl, hs⟩ := perm_clip_facts _ _ hperm
    exact ⟨hperm, hm, hl, hs⟩

/-- C10 witness: the permutation facts for moving the first clip of scenario
A to position 1. -/
theorem c10_witness :
    (handleTimelineReorder scenarioA 0 1).Perm scenarioA ∧
    ((handleTimelineReorder scenarioA 0 1 : Multiset ImageAsset) =
      (scenarioA : Multiset ImageAsset)) ∧
    (handleTimelineReorder scenarioA 0 1).length = scenarioA.length ∧
    totalImageDuration (handleTimelineReorder scenarioA 0 1) =
      totalImageDuration scenarioA :=
  c10_reorder_is_permutation.2.1 scenarioA 0 1 (by simp [scenarioA])

end LyricalFlow
